import Mathlib

/-!
Shallow embedding of `multihash.py` (python-multihash).

Bytes are modelled as `Nat` values (< 256 where the Python type is `bytes`);
byte strings are `List Nat`.  Python `ValueError` / `KeyError` / `TypeError`
failures become `Except MHError`.  The hash primitives themselves are external
capabilities (hashlib): the development is parametrised by a `HashProvider`
assigning a digest function to each algorithm name.
-/

instance {ε α : Type} [DecidableEq ε] [DecidableEq α] : DecidableEq (Except ε α) :=
  fun a b =>
    match a, b with
    | .ok x, .ok y =>
        if h : x = y then .isTrue (by rw [h]) else .isFalse (by simp [h])
    | .error x, .error y =>
        if h : x = y then .isTrue (by rw [h]) else .isFalse (by simp [h])
    | .ok _, .error _ => .isFalse (by simp)
    | .error _, .ok _ => .isFalse (by simp)

/-- Failure kinds raised by the code.  Each constructor corresponds to one
concrete `raise` site in `multihash.py` (or to an error raised by the Python
runtime itself, for `keyError`, `typeError` and `byteOutOfRange`). -/
inductive MHError where
  /-- `decode`: `ValueError('Buffer too short')` -/
  | bufferTooShort
  /-- `decode`: `ValueError('Buffer too long')` -/
  | bufferTooLong
  /-- `decode`: `ValueError('Invalid code ...')` -/
  | unknownCodec
  /-- `decode`: `ValueError('Inconsistent length ...')` -/
  | lengthMismatch
  /-- `encode_multihash`: `ValueError('multihash does not support digest length > 127')` -/
  | digestTooLong
  /-- `get_code`: `ValueError('... is not a recognized codec identifier')` -/
  | unrecognizedCodec
  /-- `get_hash_function`: `ValueError('Unknown hash function ...')` -/
  | unknownHashFunction
  /-- Python `KeyError` from a failed dict subscript `CODECS_BY_CODE[...]` -/
  | keyError
  /-- Python `ValueError: byte must be in range(0, 256)` from `bytearray` -/
  | byteOutOfRange
  /-- `encode`: `TypeError('... is not a supported input type ...')` -/
  | unsupportedContentType
  /-- Python `TypeError` from calling a non-callable -/
  | typeError
  deriving DecidableEq, Repr

/-- The `CODECS` table of `multihash.py` as (name, code) pairs, in source
order: the base table, then the sha3 entries, then the blake2 entries (both
`try` blocks succeed on Python >= 3.6, where hashlib has sha3 and blake2).
The factory component is the hashlib function for `name`; it is represented
by the name itself (see `HashFactory`). -/
def CODECS : List (String × Nat) :=
  [ ("md5", 0xd5),
    ("sha1", 0x11),
    ("sha2-256", 0x12),
    ("sha2-512", 0x13),
    ("sha3-224", 0x17),
    ("sha3-256", 0x16),
    ("sha3-384", 0x15),
    ("sha3-512", 0x14),
    ("blake2b-64", 0xb208),
    ("blake2s-32", 0xb244) ]

/-- `name in CODECS_BY_NAME` / `CODECS_BY_NAME[name]`-style lookup.
Names are unique in the table, so first-match equals the dict entry. -/
def CODECS_BY_NAME_find (name : String) : Option (String × Nat) :=
  CODECS.find? (fun e => e.1 == name)

/-- `code in CODECS_BY_CODE` membership test (dict keyed by the numeric
codes).  The key set is exactly the codes occurring in `CODECS`. -/
def codeRegistered (code : Nat) : Bool :=
  CODECS.any (fun e => e.2 == code)

/-- `CODECS_BY_CODE[code]` lookup: the hashlib function of the entry with
that code (codes are unique in the table, so first-match equals the dict
entry).  The identifier used for the membership test / subscript may be any
Python int, hence `Int`. -/
def CODECS_BY_CODE_find (code : Int) : Option (String × Nat) :=
  CODECS.find? (fun e => (e.2 : Int) == code)

/-- `CODES_BY_NAME[name]` lookup (name -> numeric code). -/
def CODES_BY_NAME_find (name : String) : Option Nat :=
  (CODECS_BY_NAME_find name).map (fun e => e.2)

/-- A hash-implementation factory (a hashlib constructor such as
`hashlib.sha1`, or a caller-supplied callable).  Identified by the algorithm
name it constructs. -/
structure HashFactory where
  alg : String
  deriving DecidableEq, Repr

/-- A running hash object: the algorithm it belongs to and the bytes fed to
it so far. -/
structure HashState where
  alg : String
  fed : List Nat
  deriving DecidableEq, Repr

/-- Calling a factory (`factory()`) yields a fresh hash object with empty
input. -/
def invokeFactory (f : HashFactory) : HashState :=
  { alg := f.alg, fed := [] }

/-- External hash primitives: for each algorithm name, the digest function
(raw input bytes to raw digest bytes).  The core treats these as opaque. -/
def HashProvider : Type := String → List Nat → List Nat

/-- The spec's interface obligation on the external hash provider: every
digest is a non-empty sequence of at most 127 bytes (the registered
algorithms produce 16–64 byte digests). -/
def ByteDigestProvider (P : HashProvider) : Prop :=
  ∀ name bs, 1 ≤ (P name bs).length ∧ (P name bs).length ≤ 127 ∧
    ∀ b ∈ P name bs, b < 256

/-- The discriminated union of identifier shapes accepted by
`get_hash_function` / `get_code`: a callable, a Python int, or a string. -/
inductive Identifier where
  | func (f : HashFactory)
  | code (n : Int)
  | str (s : String)
  deriving DecidableEq, Repr

/-- Python `s.isdigit()` restricted to ASCII: non-empty and all digits. -/
def isDigitStr (s : String) : Bool :=
  s.length != 0 && s.toList.all Char.isDigit

/-- Result of `get_hash_function`: for the callable branch the invocation
result (a hash object), for the registry branches the stored factory. -/
inductive GHFResult where
  | factory (f : HashFactory)
  | state (s : HashState)
  deriving DecidableEq, Repr

/-- `get_hash_function(hash_identifier)` of `multihash.py`:

```
if six.callable(hash_identifier):
    return hash_identifier()
elif isinstance(hash_identifier, six.integer_types):
    return CODECS_BY_CODE[hash_identifier]
elif isinstance(hash_identifier, six.string_types):
    if hash_identifier == 'sha3':
        return CODECS_BY_NAME['sha3-512']
    if hash_identifier in CODECS_BY_NAME:
        return CODECS_BY_NAME[hash_identifier]
    elif hash_identifier.isdigit():
        return CODECS_BY_CODE[int(hash_identifier)]
raise ValueError('Unknown hash function ...')
```

The callable branch calls the identifier and returns the fresh hash object;
the dict subscripts raise `KeyError` when the key is absent. -/
def get_hash_function (ident : Identifier) : Except MHError GHFResult :=
  match ident with
  | .func f => .ok (.state (invokeFactory f))
  | .code n =>
      match CODECS_BY_CODE_find n with
      | some e => .ok (.factory ⟨e.1⟩)
      | none => .error .keyError
  | .str s =>
      if s == "sha3" then .ok (.factory ⟨"sha3-512"⟩)
      else match CODECS_BY_NAME_find s with
      | some e => .ok (.factory ⟨e.1⟩)
      | none =>
          if isDigitStr s then
            match CODECS_BY_CODE_find (s.toNat! : Int) with
            | some e => .ok (.factory ⟨e.1⟩)
            | none => .error .keyError
          else .error .unknownHashFunction

/-- `is_app_code(code)` of `multihash.py`: integers in `[0, 0x10)`; every
non-integer gives `False` (here the non-integer identifier shapes). -/
def is_app_code (ident : Identifier) : Bool :=
  match ident with
  | .code n => decide (0 ≤ n) && decide (n < 0x10)
  | _ => false

/-- `get_code(identifier)` of `multihash.py`:

```
if identifier in CODECS_BY_CODE:
    return identifier
elif identifier in CODES_BY_NAME:
    return CODES_BY_NAME[identifier]
elif is_app_code(identifier):
    return identifier
else:
    raise ValueError('%s is not a recognized codec identifier' % identifier)
```

`CODECS_BY_CODE` has int keys and `CODES_BY_NAME` has string keys, so for an
int identifier only the first and third tests can succeed, for a string only
the second, and for a callable none. -/
def get_code (ident : Identifier) : Except MHError Int :=
  match ident with
  | .code n =>
      if (CODECS_BY_CODE_find n).isSome then .ok n
      else if is_app_code ident then .ok n
      else .error .unrecognizedCodec
  | .str s =>
      match CODES_BY_NAME_find s with
      | some c => .ok (c : Int)
      | none => .error .unrecognizedCodec
  | .func _ => .error .unrecognizedCodec

/-- `decode(buf)` of `multihash.py`:

```
if len(buf) < 3: raise ValueError('Buffer too short')
if len(buf) > 129: raise ValueError('Buffer too long')
code, length = struct.unpack('BB', buf[:2])
if code not in CODECS_BY_CODE: raise ValueError('Invalid code ...')
digest = buf[2:]
if len(digest) != length: raise ValueError('Inconsistent length ...')
return code, digest
```

The input is a byte string; the `match` arm for lists shorter than two
elements is unreachable because of the `len(buf) < 3` guard. -/
def decode (buf : List Nat) : Except MHError (Nat × List Nat) :=
  if buf.length < 3 then .error .bufferTooShort
  else if buf.length > 129 then .error .bufferTooLong
  else match buf with
  | code :: length :: digest =>
      if codeRegistered code = false then .error .unknownCodec
      else if digest.length ≠ length then .error .lengthMismatch
      else .ok (code, digest)
  | _ => .error .bufferTooShort

/-- `encode_multihash(digest, code)` of `multihash.py`:

```
if len(digest) > 127:
    raise ValueError('multihash does not support digest length > 127')
output = bytearray([code, len(digest)])
output.extend(digest)
return output
```

`bytearray([code, len(digest)])` raises `ValueError: byte must be in
range(0, 256)` when `code` is outside `[0, 256)`; `output.extend` raises the
same error for an out-of-range element (impossible when the argument is a
Python `bytes` value). -/
def encode_multihash (digest : List Nat) (code : Int) : Except MHError (List Nat) :=
  if digest.length > 127 then .error .digestTooLong
  else if code < 0 ∨ 255 < code then .error .byteOutOfRange
  else if digest.any (fun b => 255 < b) then .error .byteOutOfRange
  else .ok (code.toNat :: digest.length :: digest)

/-- Content shapes accepted by `encode`: bytes, text, an `io.BufferedReader`
(modelled by the chunk sequence its reads yield), an iterable of byte
chunks, or anything else. -/
inductive Content where
  | bytes (b : List Nat)
  | text (s : String)
  | stream (chunks : List (List Nat))
  | iter (chunks : List (List Nat))
  | other
  deriving Repr

/-- The byte sequence `encode` feeds into the hasher for each content shape:
bytes directly, text UTF-8-encoded, streams and iterables chunk by chunk in
order (hence the concatenation); any other shape raises `TypeError`. -/
def contentBytes : Content → Except MHError (List Nat)
  | .bytes b => .ok b
  | .text s => .ok (s.toUTF8.toList.map (fun b => b.toNat))
  | .stream chunks => .ok chunks.flatten
  | .iter chunks => .ok chunks.flatten
  | .other => .error .unsupportedContentType

/-- `encode(content, codec_identifier)` of `multihash.py`:

```
code = get_code(codec_identifier)
hash_function = get_hash_function(code)
hasher = hash_function()
<feed content into hasher>
digest = hasher.digest()
return encode_multihash(digest, code)
```

`hash_function()` raises `TypeError` if `get_hash_function` returned a
non-callable (unreachable here: `code` is an int, so the result is a stored
factory).  The final digest of a hasher that consumed `bs` is `P alg bs`. -/
def mhEncode (P : HashProvider) (content : Content) (ident : Identifier) :
    Except MHError (List Nat) := do
  let code ← get_code ident
  let r ← get_hash_function (.code code)
  let f ← match r with
    | .factory f => Except.ok f
    | .state _ => Except.error MHError.typeError
  let bs ← contentBytes content
  let digest := P f.alg bs
  encode_multihash digest code

/-- `decode(encode(content, name))`, the round-trip of claim C1. -/
def roundTrip (P : HashProvider) (content : Content) (ident : Identifier) :
    Except MHError (Nat × List Nat) :=
  (mhEncode P content ident).bind decode

/-- A concrete provider used to instantiate witnesses: every digest is the
single byte 0. -/
def unitProvider : HashProvider := fun _ _ => [0]

/-! ## Helper lemmas shared by several claims -/

/-- Unfolding `decode` on a buffer inside the size window: both size guards
pass and the header bytes are `c` and `l`. -/
theorem decode_cons (c l : Nat) (rest : List Nat)
    (h1 : 1 ≤ rest.length) (h2 : rest.length ≤ 127) :
    decode (c :: l :: rest) =
      if codeRegistered c = false then .error .unknownCodec
      else if rest.length ≠ l then .error .lengthMismatch
      else .ok (c, rest) := by
  unfold decode
  rw [if_neg (by simp only [List.length_cons]; omega),
      if_neg (by simp only [List.length_cons]; omega)]

/-- `decode` accepts a well-formed envelope for a registered code. -/
theorem decode_ok (code : Nat) (digest : List Nat)
    (hreg : codeRegistered code = true)
    (h1 : 1 ≤ digest.length) (h2 : digest.length ≤ 127) :
    decode (code :: digest.length :: digest) = .ok (code, digest) := by
  rw [decode_cons code digest.length digest h1 h2]
  simp [hreg]

/-- `encode_multihash` succeeds on a short byte digest and a one-byte code,
producing the packed header followed by the digest. -/
theorem encode_multihash_ok (digest : List Nat) (code : Int)
    (h127 : digest.length ≤ 127) (h0 : 0 ≤ code) (h255 : code ≤ 255)
    (hbytes : ∀ b ∈ digest, b < 256) :
    encode_multihash digest code = .ok (code.toNat :: digest.length :: digest) := by
  unfold encode_multihash
  rw [if_neg (by omega), if_neg (by omega), if_neg]
  simp only [List.any_eq_true, decide_eq_true_eq, not_exists, not_and, not_lt]
  intro b hb
  have := hbytes b hb
  omega

/-- `encode_multihash` can never succeed once the code exceeds one byte:
either the digest-length guard or the `bytearray` byte-range check fires. -/
theorem encode_multihash_big_code (digest : List Nat) (code : Int)
    (h : 255 < code) : ∀ out, encode_multihash digest code ≠ .ok out := by
  intro out
  unfold encode_multihash
  by_cases hlen : digest.length > 127
  · rw [if_pos hlen]; simp
  · rw [if_neg hlen, if_pos (Or.inr h)]; simp

/-- Reduction of the `Except` monad bind on a success value. -/
theorem exceptOkBind {ε α β : Type} (a : α) (f : α → Except ε β) :
    (Except.ok a : Except ε α) >>= f = f a := rfl

/-- Reduction of the `Except` monad bind on an error value. -/
theorem exceptErrorBind {ε α β : Type} (e : ε) (f : α → Except ε β) :
    (Except.error e : Except ε α) >>= f = Except.error e := rfl

/-- Evaluating `encode` once the identifier has been resolved: the code and
the factory are fixed by `get_code` / `get_hash_function`, the content
yields `bs`, and only the packing step remains. -/
theorem mhEncode_resolved (P : HashProvider) (content : Content) (bs : List Nat)
    (name fname : String) (code : Int)
    (hg : get_code (.str name) = .ok code)
    (hf : get_hash_function (.code code) = .ok (.factory ⟨fname⟩))
    (hc : contentBytes content = .ok bs) :
    mhEncode P content (.str name) = encode_multihash (P fname bs) code := by
  simp [mhEncode, hg, hf, hc, exceptOkBind]

example : get_code (.str "sha1") = .ok 17 := by decide
example : get_code (.str "17") = .error .unrecognizedCodec := by decide
example : get_code (.code 5) = .ok 5 := by decide
example : get_code (.code 100) = .error .unrecognizedCodec := by decide
example : decode [0x11, 1, 7] = .ok (0x11, [7]) := by decide
example : decode [0x11, 5, 1, 2, 3, 4] = .error .lengthMismatch := by decide
example : decode [0x00, 1, 7] = .error .unknownCodec := by decide
example : encode_multihash [1, 2] 0x11 = .ok [0x11, 2, 1, 2] := by decide
example : encode_multihash [1, 2] 0xb208 = .error .byteOutOfRange := by decide
example : mhEncode unitProvider (.bytes [9]) (.str "sha1") = .ok [0x11, 1, 0] := by
  decide
example : roundTrip unitProvider (.bytes [9]) (.str "blake2b-64")
    = .error .byteOutOfRange := by decide

/-! ## Claims -/

/-- C2: `decode` fails with `BufferTooShort` for every buffer shorter than
3 bytes, fails with `BufferTooLong` for every buffer longer than 129 bytes,
and succeeds on a 3-byte envelope whose code byte is a registered code and
whose length byte is 1. -/
theorem decode_size_window (buf : List Nat) (c d : Nat) :
    (buf.length < 3 → decode buf = .error .bufferTooShort) ∧
    (buf.length > 129 → decode buf = .error .bufferTooLong) ∧
    (c ≤ 255 → codeRegistered c = true → decode [c, 1, d] = .ok (c, [d])) := by
  refine ⟨fun h => ?_, fun h => ?_, fun hbyte hreg => ?_⟩
  · unfold decode
    rw [if_pos h]
  · unfold decode
    rw [if_neg (by omega), if_pos h]
  · exact decode_ok c [d] hreg (by simp) (by simp)

theorem decode_size_window_witness :
    decode [0, 0] = .error .bufferTooShort ∧
    decode (List.replicate 130 0) = .error .bufferTooLong ∧
    decode [17, 1, 7] = .ok (17, [7]) :=
  ⟨(decode_size_window [0, 0] 0 0).1 (by decide),
   (decode_size_window (List.replicate 130 0) 0 0).2.1 (by simp),
   (decode_size_window [] 17 7).2.2 (by decide) (by decide)⟩

/-- C3: `encode_multihash` fails with `DigestTooLong` when the digest
exceeds 127 bytes, and otherwise (for a byte digest and a one-byte code)
returns exactly `[code, len(digest)] ++ digest` with no further
validation. -/
theorem encode_multihash_packs (digest : List Nat) (code : Int) :
    (digest.length > 127 → encode_multihash digest code = .error .digestTooLong) ∧
    (digest.length ≤ 127 → 0 ≤ code → code ≤ 255 → (∀ b ∈ digest, b < 256) →
      encode_multihash digest code = .ok (code.toNat :: digest.length :: digest)) := by
  refine ⟨fun h => ?_, fun h127 h0 h255 hbytes => ?_⟩
  · unfold encode_multihash
    rw [if_pos h]
  · exact encode_multihash_ok digest code h127 h0 h255 hbytes

theorem encode_multihash_packs_witness :
    encode_multihash (List.replicate 128 0) 17 = .error .digestTooLong ∧
    encode_multihash [1, 2] 17 = .ok [17, 2, 1, 2] :=
  ⟨(encode_multihash_packs (List.replicate 128 0) 17).1 (by simp),
   (encode_multihash_packs [1, 2] 17).2 (by decide) (by decide) (by decide)
     (by decide)⟩

/-- C4: no application-specific code (0–15) is registered, and for every
buffer inside the 3–129 byte window whose first byte is not a registered
code, `decode` fails with `UnknownCodec` — for any length byte `l`, i.e.
before any length-mismatch check. -/
theorem decode_unknown_codec :
    (∀ c : Nat, c < 16 → codeRegistered c = false) ∧
    (∀ (c l : Nat) (rest : List Nat), c < 256 → codeRegistered c = false →
      1 ≤ rest.length → rest.length ≤ 127 →
      decode (c :: l :: rest) = .error .unknownCodec) := by
  refine ⟨by decide, fun c l rest _ hreg h1 h2 => ?_⟩
  rw [decode_cons c l rest h1 h2, if_pos hreg]

theorem decode_unknown_codec_witness :
    codeRegistered 0 = false ∧
    decode [0, 5, 1, 2, 3] = .error .unknownCodec :=
  ⟨decode_unknown_codec.1 0 (by decide),
   decode_unknown_codec.2 0 5 [1, 2, 3] (by decide)
     (decode_unknown_codec.1 0 (by decide)) (by decide) (by decide)⟩

/-- C8: for every registered one-byte code, a buffer `[code, 5]` followed by
exactly 4 digest bytes fails with `LengthMismatch`; generally, decoding a
buffer inside the size window with a registered code fails with
`LengthMismatch` whenever the length byte differs from the number of bytes
after the 2-byte header. -/
theorem decode_length_mismatch :
    (∀ (c : Nat) (ds : List Nat), c ≤ 255 → codeRegistered c = true →
      ds.length = 4 → decode (c :: 5 :: ds) = .error .lengthMismatch) ∧
    (∀ (c l : Nat) (rest : List Nat), codeRegistered c = true →
      1 ≤ rest.length → rest.length ≤ 127 → rest.length ≠ l →
      decode (c :: l :: rest) = .error .lengthMismatch) := by
  have general : ∀ (c l : Nat) (rest : List Nat), codeRegistered c = true →
      1 ≤ rest.length → rest.length ≤ 127 → rest.length ≠ l →
      decode (c :: l :: rest) = .error .lengthMismatch := by
    intro c l rest hreg h1 h2 hne
    rw [decode_cons c l rest h1 h2, if_neg (by simp [hreg]), if_pos hne]
  exact ⟨fun c ds _ hreg hlen =>
    general c 5 ds hreg (by omega) (by omega) (by omega), general⟩

theorem decode_length_mismatch_witness :
    decode [17, 5, 1, 2, 3, 4] = .error .lengthMismatch ∧
    decode [18, 9, 1] = .error .lengthMismatch :=
  ⟨decode_length_mismatch.1 17 [1, 2, 3, 4] (by decide) (by decide) (by decide),
   decode_length_mismatch.2 18 9 [1] (by decide) (by decide) (by decide)
     (by decide)⟩

/-- C5 counterexample: for the concrete callable `⟨"custom"⟩`,
`get_hash_function` returns the result of invoking it (a fresh hash
object), not the callable itself. -/
theorem get_hash_function_callable_counterexample :
    get_hash_function (.func ⟨"custom"⟩) = .ok (.state ⟨"custom", []⟩) ∧
    get_hash_function (.func ⟨"custom"⟩) ≠ .ok (.factory ⟨"custom"⟩) := by
  decide

/-- C5 (amended): for every callable identifier, `get_hash_function`
invokes the callable and returns the resulting initialised hash object; it
never returns a factory (in particular not the callable unchanged). -/
theorem get_hash_function_callable (f : HashFactory) :
    get_hash_function (.func f) = .ok (.state (invokeFactory f)) ∧
    ∀ g : HashFactory, get_hash_function (.func f) ≠ .ok (.factory g) := by
  refine ⟨rfl, fun g h => ?_⟩
  simp [get_hash_function] at h

theorem get_hash_function_callable_witness :
    get_hash_function (.func ⟨"w"⟩) = .ok (.state (invokeFactory ⟨"w"⟩)) ∧
    get_hash_function (.func ⟨"w"⟩) ≠ .ok (.factory ⟨"w"⟩) :=
  ⟨(get_hash_function_callable ⟨"w"⟩).1, (get_hash_function_callable ⟨"w"⟩).2 ⟨"w"⟩⟩

/-- C6 counterexample: `"17"` is a digit-only string and `17` is the
registered sha1 code, yet `get_code` fails with `UnrecognizedCodec` instead
of parsing the string and returning the code. -/
theorem get_code_digit_string_counterexample :
    isDigitStr "17" = true ∧ (CODECS_BY_CODE_find 17).isSome = true ∧
    get_code (.str "17") = .error .unrecognizedCodec ∧
    get_code (.str "17") ≠ .ok 17 := by
  decide

/-- C6 (amended): `get_code` has no digit-string branch: every digit-only
string identifier fails with `UnrecognizedCodec` (string identifiers resolve
only by registered-name lookup, and no registered name is digit-only). -/
theorem get_code_digit_string (s : String) (h : isDigitStr s = true) :
    get_code (.str s) = .error .unrecognizedCodec := by
  have hnone : CODECS_BY_NAME_find s = none := by
    cases hfind : CODECS_BY_NAME_find s with
    | none => rfl
    | some e =>
      exfalso
      unfold CODECS_BY_NAME_find at hfind
      have hmem : e ∈ CODECS := List.mem_of_find?_eq_some hfind
      have hp := List.find?_some hfind
      have hname : e.1 = s := by simpa using hp
      have hall : ∀ x ∈ CODECS, isDigitStr x.1 = false := by decide
      rw [← hname, hall e hmem] at h
      exact Bool.false_ne_true h
  simp [get_code, CODES_BY_NAME_find, hnone]

theorem get_code_digit_string_witness :
    isDigitStr "213" = true ∧ get_code (.str "213") = .error .unrecognizedCodec :=
  ⟨by decide, get_code_digit_string "213" (by decide)⟩

/-- C7: every integer in the application-specific range 0–15 has no registry
entry and is returned verbatim by `get_code`; every integer outside both the
registry code index and that range fails with `UnrecognizedCodec`. -/
theorem get_code_app_codes (n : Int) :
    (0 ≤ n → n < 16 → CODECS_BY_CODE_find n = none ∧ get_code (.code n) = .ok n) ∧
    (CODECS_BY_CODE_find n = none → ¬(0 ≤ n ∧ n < 16) →
      get_code (.code n) = .error .unrecognizedCodec) := by
  have hlt : ∀ m : Int, m < 16 → CODECS_BY_CODE_find m = none := by
    intro m hm
    cases hfind : CODECS_BY_CODE_find m with
    | none => rfl
    | some e =>
      exfalso
      unfold CODECS_BY_CODE_find at hfind
      have hmem : e ∈ CODECS := List.mem_of_find?_eq_some hfind
      have hp := List.find?_some hfind
      have hcode : (e.2 : Int) = m := by simpa using hp
      have hall : ∀ x ∈ CODECS, 17 ≤ x.2 := by decide
      have h17 : 17 ≤ e.2 := hall e hmem
      omega
  refine ⟨fun h0 h16 => ?_, fun hnone hnotapp => ?_⟩
  · have hn := hlt n h16
    refine ⟨hn, ?_⟩
    simp [get_code, hn, is_app_code, h0, h16]
  · have happ : is_app_code (.code n) = false := by
      simp only [is_app_code, Bool.and_eq_false_iff, decide_eq_false_iff_not,
        not_lt, not_le]
      omega
    simp [get_code, hnone, happ]

theorem get_code_app_codes_witness :
    (CODECS_BY_CODE_find 5 = none ∧ get_code (.code 5) = .ok 5) ∧
    get_code (.code 100) = .error .unrecognizedCodec :=
  ⟨(get_code_app_codes 5).1 (by decide) (by decide),
   (get_code_app_codes 100).2 (by decide) (by decide)⟩

/-- C9: once a code exceeds one byte, `encode_multihash` fails with the
uncaught `bytearray` range error; the blake2 entries are registered with
such codes, so `encode` can never succeed for them, whatever the provider
and content. -/
theorem encode_code_overflow :
    (∀ (code : Int) (digest : List Nat), 255 < code → digest.length ≤ 127 →
      encode_multihash digest code = .error .byteOutOfRange) ∧
    ("blake2b-64", 0xb208) ∈ CODECS ∧ ("blake2s-32", 0xb244) ∈ CODECS ∧
    (∀ (P : HashProvider) (content : Content) (out : List Nat),
      mhEncode P content (.str "blake2b-64") ≠ .ok out) ∧
    (∀ (P : HashProvider) (content : Content) (out : List Nat),
      mhEncode P content (.str "blake2s-32") ≠ .ok out) := by
  have hbig : ∀ (P : HashProvider) (content : Content) (name : String) (c : Int),
      get_code (.str name) = .ok c →
      get_hash_function (.code c) = .ok (.factory ⟨name⟩) → 255 < c →
      ∀ out, mhEncode P content (.str name) ≠ .ok out := by
    intro P content name c hg hf hc out
    cases content with
    | bytes b =>
        rw [mhEncode_resolved P (.bytes b) b name name c hg hf rfl]
        exact encode_multihash_big_code _ _ hc out
    | text s =>
        rw [mhEncode_resolved P (.text s) _ name name c hg hf rfl]
        exact encode_multihash_big_code _ _ hc out
    | stream chunks =>
        rw [mhEncode_resolved P (.stream chunks) _ name name c hg hf rfl]
        exact encode_multihash_big_code _ _ hc out
    | iter chunks =>
        rw [mhEncode_resolved P (.iter chunks) _ name name c hg hf rfl]
        exact encode_multihash_big_code _ _ hc out
    | other =>
        simp [mhEncode, hg, hf, exceptOkBind, exceptErrorBind, contentBytes]
  refine ⟨fun code digest hc hl => ?_, by decide, by decide, ?_, ?_⟩
  · unfold encode_multihash
    rw [if_neg (by omega), if_pos (Or.inr hc)]
  · exact fun P content => hbig P content "blake2b-64" 0xb208 (by decide) (by decide)
      (by decide)
  · exact fun P content => hbig P content "blake2s-32" 0xb244 (by decide) (by decide)
      (by decide)

theorem encode_code_overflow_witness :
    encode_multihash [0] 45576 = .error .byteOutOfRange ∧
    mhEncode unitProvider (.bytes []) (.str "blake2b-64") ≠ .ok [1] :=
  ⟨encode_code_overflow.1 45576 [0] (by decide) (by decide),
   encode_code_overflow.2.2.2.1 unitProvider (.bytes []) [1]⟩

/-- C10: `encode_multihash` accepts an empty digest and produces the 2-byte
output `[code, 0]`, but `decode` rejects every 2-byte buffer with
`BufferTooShort`, so such an envelope can never be decoded. -/
theorem empty_digest_envelope (code : Int) (buf : List Nat) :
    (0 ≤ code → code ≤ 255 → encode_multihash [] code = .ok [code.toNat, 0]) ∧
    (buf.length = 2 → decode buf = .error .bufferTooShort) := by
  refine ⟨fun h0 h255 => ?_, fun h2 => ?_⟩
  · exact encode_multihash_ok [] code (by simp) h0 h255 (by simp)
  · unfold decode
    rw [if_pos (by omega)]

theorem empty_digest_envelope_witness :
    encode_multihash [] 17 = .ok [17, 0] ∧
    decode [17, 0] = .error .bufferTooShort :=
  ⟨(empty_digest_envelope 17 []).1 (by decide) (by decide),
   (empty_digest_envelope 17 [17, 0]).2 (by decide)⟩

/-- One registered entry round-trips: with the identifier resolved to a
one-byte registered code and the content to its byte sequence, encoding then
decoding returns the code with the raw digest. -/
theorem roundTrip_entry (P : HashProvider) (content : Content) (bs : List Nat)
    (name : String) (code : Nat)
    (hg : get_code (.str name) = .ok (code : Int))
    (hf : get_hash_function (.code (code : Int)) = .ok (.factory ⟨name⟩))
    (hreg : codeRegistered code = true) (hbyte : code ≤ 255)
    (hc : contentBytes content = .ok bs)
    (h1 : 1 ≤ (P name bs).length) (h2 : (P name bs).length ≤ 127)
    (h3 : ∀ b ∈ P name bs, b < 256) :
    roundTrip P content (.str name) = .ok (code, P name bs) := by
  unfold roundTrip
  rw [mhEncode_resolved P content bs name name (code : Int) hg hf hc,
      encode_multihash_ok _ _ h2 (Int.natCast_nonneg code)
        (by exact_mod_cast hbyte) h3]
  show decode ((code : Int).toNat :: (P name bs).length :: P name bs)
      = .ok (code, P name bs)
  rw [Int.toNat_natCast]
  exact decode_ok code (P name bs) hreg h1 h2

/-- C1 (amended): for every hash provider meeting the byte-digest interface,
every registered algorithm whose code fits in one byte, and every content
accepted by the streaming hasher, decoding the envelope produced by `encode`
succeeds and returns exactly the registry code and the raw digest. -/
theorem round_trip (P : HashProvider) (hP : ByteDigestProvider P)
    (name : String) (code : Nat)
    (hmem : (name, code) ∈ CODECS) (hbyte : code ≤ 255)
    (content : Content) (bs : List Nat) (hc : contentBytes content = .ok bs) :
    roundTrip P content (.str name) = .ok (code, P name bs) := by
  obtain ⟨h1, h2, h3⟩ := hP name bs
  have hkey : ∀ x ∈ CODECS, x.2 ≤ 255 →
      get_code (.str x.1) = .ok (x.2 : Int) ∧
      get_hash_function (.code (x.2 : Int)) = .ok (.factory ⟨x.1⟩) ∧
      codeRegistered x.2 = true := by decide
  obtain ⟨hg, hf, hreg⟩ := hkey (name, code) hmem hbyte
  exact roundTrip_entry P content bs name code hg hf hreg hbyte hc h1 h2 h3

theorem round_trip_witness :
    ByteDigestProvider unitProvider ∧
    roundTrip unitProvider (.bytes [1, 2, 3]) (.str "sha1") = .ok (17, [0]) := by
  have hP : ByteDigestProvider unitProvider := by
    intro name bs
    refine ⟨by simp [unitProvider], by simp [unitProvider], ?_⟩
    intro b hb
    simp [unitProvider] at hb
    omega
  exact ⟨hP, round_trip unitProvider hP "sha1" 17 (by decide) (by decide)
    (.bytes [1, 2, 3]) [1, 2, 3] rfl⟩

/-- C1 counterexample: `"blake2b-64"` is a registered algorithm, yet for the
concrete content `[]` its encode fails with the `bytearray` range error, so
the round-trip does not hold for every registered algorithm. -/
theorem round_trip_counterexample :
    ("blake2b-64", 0xb208) ∈ CODECS ∧
    roundTrip unitProvider (.bytes []) (.str "blake2b-64")
      = .error .byteOutOfRange := by
  exact ⟨by decide, by decide⟩
